import Mathlib

/-!
# Verification of mutagui's reconciliation and navigation core

A shallow embedding, in Lean 4, of the reconciliation engine
(`src/project.rs`), the selection model (`src/selection.rs`) and the
refresh boundary (`src/app.rs`) of the mutagui terminal dashboard,
together with proofs of the specified properties.

File paths from the Rust code are modelled as `String`s; timestamps as
`Int`; arbitrary YAML values (only stored, never inspected by the code
under verification) as `Option String`.  Rust `HashMap`s that the code
only iterates or collects are modelled as association lists, with
"later insert wins" lookup where the code builds the map by insertion.
Rust's `sort_by` (a stable merge sort) is modelled by `List.mergeSort`
(also a stable merge sort).
-/

namespace Mutagui

/-- `FileState` from `src/mutagen.rs`. -/
structure FileState where
  kind : String
  digest : Option String
deriving DecidableEq, Repr

/-- `Change` from `src/mutagen.rs`. -/
structure Change where
  path : String
  old : Option FileState
  new : Option FileState
deriving DecidableEq, Repr

/-- `Conflict` from `src/mutagen.rs`. -/
structure Conflict where
  root : String
  alpha_changes : List Change
  beta_changes : List Change
deriving DecidableEq, Repr

/-- `SyncTime` from `src/mutagen.rs` (`Never | Unknown | At(DateTime<Local>)`),
with the timestamp modelled as an `Int`. -/
inductive SyncTime where
  | Never : SyncTime
  | Unknown : SyncTime
  | At : Int → SyncTime
deriving DecidableEq, Repr

/-- `Endpoint` from `src/mutagen.rs`. -/
structure Endpoint where
  protocol : String
  path : String
  host : Option String
  connected : Bool
  scanned : Bool
  directories : Option Nat
  files : Option Nat
  symbolic_links : Option Nat
  total_file_size : Option Nat
deriving DecidableEq, Repr

/-- `SyncSession` from `src/mutagen.rs`: one live daemon-reported session. -/
structure SyncSession where
  name : String
  identifier : String
  alpha : Endpoint
  beta : Endpoint
  status : String
  paused : Bool
  mode : Option String
  creation_time : Option String
  successful_cycles : Option Nat
  conflicts : List Conflict
  sync_time : SyncTime
deriving DecidableEq, Repr

/-- `SyncSession::has_conflicts` from `src/mutagen.rs`. -/
def SyncSession.has_conflicts (s : SyncSession) : Bool :=
  !s.conflicts.isEmpty

/-- `SyncSession::conflict_count` from `src/mutagen.rs`. -/
def SyncSession.conflict_count (s : SyncSession) : Nat :=
  s.conflicts.length

/-- `SyncSpecState` from `src/project.rs`. -/
inductive SyncSpecState where
  | NotRunning : SyncSpecState
  | RunningTwoWay : SyncSpecState
  | RunningPush : SyncSpecState
deriving DecidableEq, Repr

/-- `SessionDefinition` from `src/project.rs`: one configured endpoint pair.
The `ignore` YAML value is stored but never inspected by the reconciliation
code, so it is modelled as an uninterpreted `Option String`. -/
structure SessionDefinition where
  alpha : String
  beta : String
  mode : Option String
  ignore : Option String
deriving DecidableEq, Repr

/-- `SyncSpec` from `src/project.rs`: a reconciled sync specification. -/
structure SyncSpec where
  name : String
  state : SyncSpecState
  running_session : Option SyncSession
deriving DecidableEq, Repr

/-- `SyncSpec::is_running` from `src/project.rs`. -/
def SyncSpec.is_running (s : SyncSpec) : Bool :=
  s.running_session.isSome

/-- `SyncSpec::conflicts` from `src/project.rs`. -/
def SyncSpec.conflicts (s : SyncSpec) : Option (List Conflict) :=
  s.running_session.map (fun sess => sess.conflicts)

/-- `SyncSpec::has_conflicts` from `src/project.rs`. -/
def SyncSpec.has_conflicts (s : SyncSpec) : Bool :=
  (s.conflicts.map (fun c => !c.isEmpty)).getD false

/-- `SyncSpec::is_paused` from `src/project.rs`. -/
def SyncSpec.is_paused (s : SyncSpec) : Bool :=
  (s.running_session.map (fun sess => sess.paused)).getD false

/-- `ProjectFile` from `src/project.rs`.  The `sessions` `HashMap<String,
SessionDefinition>` is modelled as an association list of its entries
(its keys are unique; `build_sync_specs` iterates the keys and then sorts,
so key order is immaterial to the sorted result). -/
structure ProjectFile where
  path : String
  target_name : Option String
  sessions : List (String × SessionDefinition)
deriving DecidableEq, Repr

/-- `Project` from `src/project.rs`. -/
structure Project where
  file : ProjectFile
  specs : List SyncSpec
  folded : Bool
deriving DecidableEq, Repr

/-- The two-way match predicate inside `build_sync_specs`
(`src/project.rs`, line 418): name equals the spec name and mode is not
`one-way-replica`. -/
def isTwoWayMatch (name : String) (s : SyncSession) : Bool :=
  decide (s.name = name ∧ s.mode ≠ some "one-way-replica")

/-- The push match predicate inside `build_sync_specs`
(`src/project.rs`, lines 420-422): name equals the spec name suffixed with
`-push` and mode is `one-way-replica`. -/
def isPushMatch (name : String) (s : SyncSession) : Bool :=
  decide (s.name = name ++ "-push" ∧ s.mode = some "one-way-replica")

/-- The per-spec classification step of `build_sync_specs`
(`src/project.rs`, lines 414-437): find the first two-way match, else the
first push match, else not running. -/
def classifySpec (sessions : List SyncSession) (name : String) : SyncSpec :=
  match sessions.find? (isTwoWayMatch name) with
  | some session => ⟨name, SyncSpecState.RunningTwoWay, some session⟩
  | none =>
    match sessions.find? (isPushMatch name) with
    | some session => ⟨name, SyncSpecState.RunningPush, some session⟩
    | none => ⟨name, SyncSpecState.NotRunning, none⟩

/-- `build_sync_specs` from `src/project.rs` (lines 411-443): classify every
configured spec name, then sort the specs alphabetically by name. -/
def build_sync_specs (project_file : ProjectFile) (sessions : List SyncSession) :
    List SyncSpec :=
  let specs := project_file.sessions.map (fun kv => classifySpec sessions kv.1)
  specs.mergeSort (fun a b => decide (a.name ≤ b.name))

/-- `should_auto_unfold_specs` from `src/project.rs` (lines 446-472). -/
def should_auto_unfold_specs (specs : List SyncSpec) : Bool :=
  if specs.any (fun s => s.has_conflicts) then
    true
  else
    let running_count := (specs.filter (fun s => s.is_running)).length
    if running_count > 0 && running_count < specs.length then
      true
    else
      let two_way_count :=
        (specs.filter (fun s => decide (s.state = SyncSpecState.RunningTwoWay))).length
      let push_count :=
        (specs.filter (fun s => decide (s.state = SyncSpecState.RunningPush))).length
      if two_way_count > 0 && push_count > 0 then
        true
      else
        false

/-- `correlate_projects_with_sessions` from `src/project.rs` (lines 474-491). -/
def correlate_projects_with_sessions (project_files : List ProjectFile)
    (sessions : List SyncSession) : List Project :=
  project_files.map (fun file =>
    let specs := build_sync_specs file sessions
    let should_unfold := should_auto_unfold_specs specs
    { file := file, specs := specs, folded := !should_unfold })

/-! ## Selection model (`src/selection.rs`)

`SelectionManager` treats projects and sessions as a single unified list:
projects occupy indices `0..projects_len`, sessions occupy
`projects_len..projects_len+sessions_len`.  Each Rust `&mut self` method is
embedded as a pure state transformer. -/

/-- `FocusArea` from `src/selection.rs`. -/
inductive FocusArea where
  | Projects : FocusArea
  | Sessions : FocusArea
deriving DecidableEq, Repr

/-- `SelectionManager` from `src/selection.rs`. -/
structure SelectionManager where
  projects_len : Nat
  sessions_len : Nat
  selected_index : Nat
  last_project_index : Option Nat
  last_session_index : Option Nat
  focus_area : FocusArea
deriving DecidableEq, Repr

namespace SelectionManager

/-- `SelectionManager::new` from `src/selection.rs`. -/
def new : SelectionManager :=
  { projects_len := 0
    sessions_len := 0
    selected_index := 0
    last_project_index := none
    last_session_index := none
    focus_area := FocusArea.Projects }

/-- `SelectionManager::total_items` from `src/selection.rs`. -/
def total_items (sm : SelectionManager) : Nat :=
  sm.projects_len + sm.sessions_len

/-- `SelectionManager::raw_index` from `src/selection.rs`. -/
def raw_index (sm : SelectionManager) : Nat :=
  sm.selected_index

/-- `SelectionManager::selected_project` from `src/selection.rs`. -/
def selected_project (sm : SelectionManager) : Option Nat :=
  if sm.selected_index < sm.projects_len then some sm.selected_index else none

/-- `SelectionManager::selected_session` from `src/selection.rs`. -/
def selected_session (sm : SelectionManager) : Option Nat :=
  if sm.projects_len ≤ sm.selected_index ∧ 0 < sm.sessions_len then
    some (sm.selected_index - sm.projects_len)
  else none

/-- `SelectionManager::update_focus_from_selection` from `src/selection.rs`. -/
def update_focus_from_selection (sm : SelectionManager) : SelectionManager :=
  if sm.selected_index < sm.projects_len then
    { sm with focus_area := FocusArea.Projects }
  else
    { sm with focus_area := FocusArea.Sessions }

/-- `SelectionManager::update_sizes` from `src/selection.rs` (lines 53-70):
store the new sizes, clamp the selection into range when the total is
positive, then update the focus area from the clamped selection. -/
def update_sizes (sm : SelectionManager) (projects_len sessions_len : Nat) :
    SelectionManager :=
  let sm := { sm with projects_len := projects_len, sessions_len := sessions_len }
  let total := sm.total_items
  let sm :=
    if 0 < total ∧ total ≤ sm.selected_index then
      { sm with selected_index := total - 1 }
    else sm
  if sm.selected_index < projects_len then
    { sm with focus_area := FocusArea.Projects }
  else if 0 < sessions_len then
    { sm with focus_area := FocusArea.Sessions }
  else sm

/-- `SelectionManager::select_next` from `src/selection.rs` (lines 105-112). -/
def select_next (sm : SelectionManager) : SelectionManager :=
  let total := sm.total_items
  if 0 < total then
    ({ sm with selected_index := (sm.selected_index + 1) % total }).update_focus_from_selection
  else sm

/-- `SelectionManager::select_previous` from `src/selection.rs` (lines 114-125). -/
def select_previous (sm : SelectionManager) : SelectionManager :=
  let total := sm.total_items
  if 0 < total then
    let sm :=
      if sm.selected_index = 0 then
        { sm with selected_index := total - 1 }
      else
        { sm with selected_index := sm.selected_index - 1 }
    sm.update_focus_from_selection
  else sm

/-- `SelectionManager::save_current_position` from `src/selection.rs`. -/
def save_current_position (sm : SelectionManager) : SelectionManager :=
  match sm.selected_project with
  | some proj_idx => { sm with last_project_index := some proj_idx }
  | none =>
    match sm.selected_session with
    | some sess_idx => { sm with last_session_index := some sess_idx }
    | none => sm

/-- `SelectionManager::toggle_focus` from `src/selection.rs` (lines 131-180):
save the current position, flip the focus area, then restore the last
position in the new area (falling back to its first item), reverting the
flip when the new area is empty. -/
def toggle_focus (sm : SelectionManager) : SelectionManager :=
  let sm := sm.save_current_position
  let fa :=
    match sm.focus_area with
    | FocusArea.Projects => FocusArea.Sessions
    | FocusArea.Sessions => FocusArea.Projects
  let sm := { sm with focus_area := fa }
  match fa with
  | FocusArea.Projects =>
    if sm.projects_len = 0 then
      { sm with focus_area := FocusArea.Sessions }
    else
      match sm.last_project_index with
      | some last_idx =>
        if last_idx < sm.projects_len then
          { sm with selected_index := last_idx }
        else
          { sm with selected_index := 0 }
      | none => { sm with selected_index := 0 }
  | FocusArea.Sessions =>
    if sm.sessions_len = 0 then
      { sm with focus_area := FocusArea.Projects }
    else
      match sm.last_session_index with
      | some last_idx =>
        if last_idx < sm.sessions_len then
          { sm with selected_index := sm.projects_len + last_idx }
        else
          { sm with selected_index := sm.projects_len }
      | none => { sm with selected_index := sm.projects_len }

/-- `SelectionManager::select_project` from `src/selection.rs` (lines 193-198). -/
def select_project (sm : SelectionManager) (project_idx : Nat) : SelectionManager :=
  if project_idx < sm.projects_len then
    { sm with selected_index := project_idx, focus_area := FocusArea.Projects }
  else sm

/-- `SelectionManager::select_session` from `src/selection.rs` (lines 201-206). -/
def select_session (sm : SelectionManager) (session_idx : Nat) : SelectionManager :=
  if session_idx < sm.sessions_len then
    { sm with selected_index := sm.projects_len + session_idx,
              focus_area := FocusArea.Sessions }
  else sm

end SelectionManager

/-- The operations of the selection model, as an inductive alphabet, so that
invariant preservation can be stated once over all of them. -/
inductive SelOp where
  | updateSizes (projects_len sessions_len : Nat) : SelOp
  | next : SelOp
  | prev : SelOp
  | toggleFocus : SelOp
  | selProject (idx : Nat) : SelOp
  | selSession (idx : Nat) : SelOp
deriving DecidableEq, Repr

/-- Apply one selection-model operation to a `SelectionManager` state. -/
def SelOp.apply (op : SelOp) (sm : SelectionManager) : SelectionManager :=
  match op with
  | SelOp.updateSizes p s => sm.update_sizes p s
  | SelOp.next => sm.select_next
  | SelOp.prev => sm.select_previous
  | SelOp.toggleFocus => sm.toggle_focus
  | SelOp.selProject i => sm.select_project i
  | SelOp.selSession i => sm.select_session i

/-- The cursor invariant: when the unified list is non-empty, the selected
index is strictly below the total item count. -/
def CursorInv (sm : SelectionManager) : Prop :=
  0 < sm.total_items → sm.selected_index < sm.total_items

/-! ## Refresh boundary (`src/app.rs`)

`App::refresh_sessions` is embedded as a pure state transformer taking the
already-resolved results of its two collaborator calls
(`mutagen_client.list_sessions()` and `discover_project_files(..)`) as
`Except` values, plus the current time. -/

/-- `StatusMessage` from `src/app.rs`. -/
inductive StatusMessage where
  | Info : String → StatusMessage
  | Warning : String → StatusMessage
  | Error : String → StatusMessage
deriving DecidableEq, Repr

/-- `StatusMessage::text` from `src/app.rs`. -/
def StatusMessage.text : StatusMessage → String
  | StatusMessage.Info s => s
  | StatusMessage.Warning s => s
  | StatusMessage.Error s => s

/-- `SessionDisplayMode` from `src/app.rs`. -/
inductive SessionDisplayMode where
  | ShowPaths : SessionDisplayMode
  | ShowLastRefresh : SessionDisplayMode
deriving DecidableEq, Repr

/-- An approximation of `Path::file_name` for the `String` model of paths:
the last `/`-separated component, or `none` when it is empty. -/
def fileName (path : String) : Option String :=
  match (path.splitOn "/").getLast? with
  | some s => if s = "" then none else some s
  | none => none

/-- `ProjectFile::display_name` from `src/project.rs` (lines 191-203). -/
def ProjectFile.display_name (pf : ProjectFile) : String :=
  match pf.target_name with
  | some target => "mutagen-" ++ target
  | none =>
    let base := (fileName pf.path).getD "mutagen.yml"
    if base.endsWith ".yml" then base.dropRight 4 else "mutagen"

/-- Lookup in an association list built by repeated `HashMap` insertion:
a later entry for the same key overwrites an earlier one, as in
`HashMap::insert` / `HashMap::from_iter`. -/
def hashMapGet {α : Type} (entries : List (String × α)) (key : String) : Option α :=
  entries.foldl (fun acc kv => if kv.1 = key then some kv.2 else acc) none

/-- The `old_sessions_by_id` map of `App::refresh_sessions`
(`src/app.rs`, lines 115-122): every attached session of the previous
projects, keyed by stable identifier, in iteration order. -/
def oldSessionsById (projects : List Project) : List (String × SyncSession) :=
  projects.flatMap (fun p =>
    p.specs.filterMap (fun spec =>
      spec.running_session.map (fun s => (s.identifier, s))))

/-- The per-session `sync_time` tracking of `App::refresh_sessions`
(`src/app.rs`, lines 124-155).  The newer source writes the bare observed
sync marker; in the model, which carries the observation timestamp on
`SyncTime.At`, that marker is `SyncTime.At now`. -/
def updateSessionSyncTime (old_by_id : List (String × SyncSession))
    (is_first_refresh : Bool) (now : Int) (s : SyncSession) : SyncSession :=
  match hashMapGet old_by_id s.identifier with
  | some old_session =>
    let new_cycles := s.successful_cycles.getD 0
    let old_cycles := old_session.successful_cycles.getD 0
    if old_cycles < new_cycles then
      { s with sync_time := SyncTime.At now }
    else
      { s with sync_time := old_session.sync_time }
  | none =>
    if is_first_refresh then
      { s with sync_time := SyncTime.Unknown }
    else
      let cycles := s.successful_cycles.getD 0
      if 0 < cycles then
        { s with sync_time := SyncTime.At now }
      else
        { s with sync_time := SyncTime.Never }

/-- The fold-state snapshot of `App::refresh_sessions`
(`src/app.rs`, lines 157-162): `file path -> folded` over the previous
projects. -/
def foldStateOf (projects : List Project) : List (String × Bool) :=
  projects.map (fun p => (p.file.path, p.folded))

/-- The fold-state restore loop of `App::refresh_sessions`
(`src/app.rs`, lines 172-178): a project whose path has a saved fold flag
takes it; otherwise the auto-computed flag stands. -/
def restoreFoldState (fold_state : List (String × Bool)) (projects : List Project) :
    List Project :=
  projects.map (fun p =>
    match hashMapGet fold_state p.file.path with
    | some saved_folded => { p with folded := saved_folded }
    | none => p)

/-- The alphabetical project sort of `App::refresh_sessions`
(`src/app.rs`, lines 180-182). -/
def sortProjectsByDisplayName (projects : List Project) : List Project :=
  projects.mergeSort (fun a b => decide (a.file.display_name ≤ b.file.display_name))

/-- A row of the flattened navigation tree. -/
inductive SelectableRow where
  | projectHeader : Nat → SelectableRow
  | specRow : Nat → Nat → SelectableRow
deriving DecidableEq, Repr

/-- The row-list selection state addressed by `App::refresh_sessions`. -/
structure SelectionState where
  rows : List SelectableRow
  cursor : Nat
deriving DecidableEq, Repr

/-- Modelled from the spec: the flattening step of §4.3 `rebuild` — the
implementation called by `App::refresh_sessions`
(`SelectionManager::rebuild_from_projects`) is not among the sources.  For
each project in order emit one `ProjectHeader`; if the project is not
folded, emit one `Spec` row per spec in order. -/
def flattenProjects (projects : List Project) : List SelectableRow :=
  (projects.enum).flatMap (fun ip =>
    SelectableRow.projectHeader ip.1 ::
      (if ip.2.folded then []
       else (ip.2.specs.enum).map (fun js => SelectableRow.specRow ip.1 js.1)))

/-- Modelled from the spec: `SelectionManager::rebuild_from_projects`, called
by `App::refresh_sessions` but absent from the sources.  Per §4.3: flatten
the projects into rows, then clamp the existing cursor into `[0, len-1]`
if it exceeds the new length, or reset it to 0 if the list became
non-empty from empty. -/
def rebuild_from_projects (projects : List Project) (st : SelectionState) :
    SelectionState :=
  let rows := flattenProjects projects
  let cursor :=
    if rows.isEmpty then st.cursor
    else if st.rows.isEmpty then 0
    else min st.cursor (rows.length - 1)
  { rows := rows, cursor := cursor }

/-- The fields of `App` (`src/app.rs`) touched or carried by
`refresh_sessions`.  The collaborator handles (`mutagen_client`, `config`,
`color_scheme`) are omitted: their outputs enter `refresh_sessions` as the
already-resolved `Except` arguments. -/
structure App where
  projects : List Project
  selection : SelectionState
  should_quit : Bool
  status_message : Option StatusMessage
  last_refresh : Option Int
  project_dir : Option String
  session_display_mode : SessionDisplayMode
  viewing_conflicts : Bool
  viewing_help : Bool
  has_refresh_error : Bool
deriving DecidableEq, Repr

/-- `App::refresh_sessions` from `src/app.rs` (lines 107-225), with the two
collaborator calls supplied as already-resolved `Except` results and the
current time as `now`.  On a session-query error the previous state is kept
and only an error status message and the error flag are recorded; on
success the sessions' sync times are threaded, the projects rebuilt with
fold-state carryover and sorted, and the selection rebuilt. -/
def App.refresh_sessions (app : App) (list_result : Except String (List SyncSession))
    (discover_result : Except String (List ProjectFile)) (now : Int) : App :=
  match list_result with
  | Except.ok sessions =>
    let is_first_refresh := app.projects.isEmpty
    let old_by_id := oldSessionsById app.projects
    let new_sessions :=
      sessions.map (updateSessionSyncTime old_by_id is_first_refresh now)
    let fold_state := foldStateOf app.projects
    let projects :=
      match discover_result with
      | Except.ok project_files =>
        sortProjectsByDisplayName
          (restoreFoldState fold_state
            (correlate_projects_with_sessions project_files new_sessions))
      | Except.error _ => app.projects
    let selection := rebuild_from_projects projects app.selection
    let should_show_refreshed : Bool :=
      app.status_message.isNone ||
        ((app.status_message.map (fun msg =>
            decide (msg.text = "Creating push session...") ||
              decide (msg.text = "Starting sync spec..."))).getD false)
    let status_message :=
      if should_show_refreshed then some (StatusMessage.Info "Sessions refreshed")
      else app.status_message
    { app with
        projects := projects
        selection := selection
        last_refresh := some now
        status_message := status_message
        has_refresh_error := false }
  | Except.error e =>
    { app with
        status_message :=
          some (StatusMessage.Error ("Error: " ++ e ++ " (press 'r' to retry)"))
        has_refresh_error := true }

/-! ## Basic lemmas about the reconciliation engine -/

theorem classifySpec_name (sessions : List SyncSession) (name : String) :
    (classifySpec sessions name).name = name := by
  unfold classifySpec
  split
  · rfl
  · split <;> rfl

theorem classifySpec_eq_twoWay {sessions : List SyncSession} {name : String}
    {s : SyncSession} (h : sessions.find? (isTwoWayMatch name) = some s) :
    classifySpec sessions name = ⟨name, SyncSpecState.RunningTwoWay, some s⟩ := by
  unfold classifySpec
  rw [h]

theorem classifySpec_eq_push {sessions : List SyncSession} {name : String}
    {s : SyncSession} (h1 : sessions.find? (isTwoWayMatch name) = none)
    (h2 : sessions.find? (isPushMatch name) = some s) :
    classifySpec sessions name = ⟨name, SyncSpecState.RunningPush, some s⟩ := by
  unfold classifySpec
  rw [h1, h2]

theorem classifySpec_eq_notRunning {sessions : List SyncSession} {name : String}
    (h1 : sessions.find? (isTwoWayMatch name) = none)
    (h2 : sessions.find? (isPushMatch name) = none) :
    classifySpec sessions name = ⟨name, SyncSpecState.NotRunning, none⟩ := by
  unfold classifySpec
  rw [h1, h2]

theorem mem_build_sync_specs {pf : ProjectFile} {sessions : List SyncSession}
    {spec : SyncSpec} :
    spec ∈ build_sync_specs pf sessions ↔
      ∃ kv ∈ pf.sessions, spec = classifySpec sessions kv.1 := by
  unfold build_sync_specs
  simp only [List.mem_mergeSort, List.mem_map]
  constructor
  · rintro ⟨kv, hkv, rfl⟩
    exact ⟨kv, hkv, rfl⟩
  · rintro ⟨kv, hkv, rfl⟩
    exact ⟨kv, hkv, rfl⟩

theorem length_build_sync_specs (pf : ProjectFile) (sessions : List SyncSession) :
    (build_sync_specs pf sessions).length = pf.sessions.length := by
  unfold build_sync_specs
  simp

/-- C1: if the session list contains a session named `n` whose mode is not
`one-way-replica`, then every reconciled spec named `n` has state
`RunningTwoWay` with such a session attached (the push rule is never the
one that fires, even if a `n-push` one-way session coexists in the list,
and the single `running_session` field attaches at most one session), and
a spec named `n` does occur whenever `n` is a configured key. -/
theorem two_way_precedence (pf : ProjectFile) (sessions : List SyncSession)
    (n : String) (s : SyncSession)
    (hmem : n ∈ pf.sessions.map Prod.fst)
    (hs : s ∈ sessions) (hname : s.name = n)
    (hmode : s.mode ≠ some "one-way-replica") :
    (∃ spec ∈ build_sync_specs pf sessions, spec.name = n) ∧
    ∀ spec ∈ build_sync_specs pf sessions, spec.name = n →
      spec.state = SyncSpecState.RunningTwoWay ∧
      ∃ att, spec.running_session = some att ∧ att.name = n ∧
        att.mode ≠ some "one-way-replica" := by
  have hfindSome : (sessions.find? (isTwoWayMatch n)).isSome := by
    rw [List.find?_isSome]
    exact ⟨s, hs, by simp [isTwoWayMatch, hname, hmode]⟩
  obtain ⟨att, hfind⟩ := Option.isSome_iff_exists.mp hfindSome
  have hattP : att.name = n ∧ att.mode ≠ some "one-way-replica" := by
    simpa [isTwoWayMatch] using List.find?_some hfind
  constructor
  · obtain ⟨kv, hkv, hk⟩ := List.mem_map.mp hmem
    exact ⟨classifySpec sessions n,
      mem_build_sync_specs.mpr ⟨kv, hkv, by rw [hk]⟩, classifySpec_name sessions n⟩
  · intro spec hspec hspecName
    obtain ⟨kv, hkv, rfl⟩ := mem_build_sync_specs.mp hspec
    have hkey : kv.1 = n := by
      rw [← classifySpec_name sessions kv.1]
      exact hspecName
    rw [hkey, classifySpec_eq_twoWay hfind]
    exact ⟨rfl, att, rfl, hattP.1, hattP.2⟩

/-- C2: a configured spec name `n` for which the session list contains
neither an `n`-named non-one-way session nor an `n-push`-named one-way
session reconciles to `NotRunning` with nothing attached, and
reconciliation is total: it always yields exactly one spec per configured
key. -/
theorem not_running_of_no_match (pf : ProjectFile) (sessions : List SyncSession)
    (n : String)
    (hmem : n ∈ pf.sessions.map Prod.fst)
    (hno2 : ∀ s ∈ sessions, ¬(s.name = n ∧ s.mode ≠ some "one-way-replica"))
    (hnop : ∀ s ∈ sessions, ¬(s.name = n ++ "-push" ∧ s.mode = some "one-way-replica")) :
    (∃ spec ∈ build_sync_specs pf sessions, spec.name = n) ∧
    (∀ spec ∈ build_sync_specs pf sessions, spec.name = n →
      spec.state = SyncSpecState.NotRunning ∧ spec.running_session = none) ∧
    (build_sync_specs pf sessions).length = pf.sessions.length := by
  have hfind2 : sessions.find? (isTwoWayMatch n) = none := by
    rw [List.find?_eq_none]
    intro s hs
    simpa [isTwoWayMatch] using hno2 s hs
  have hfindP : sessions.find? (isPushMatch n) = none := by
    rw [List.find?_eq_none]
    intro s hs
    simpa [isPushMatch] using hnop s hs
  refine ⟨?_, ?_, length_build_sync_specs pf sessions⟩
  · obtain ⟨kv, hkv, hk⟩ := List.mem_map.mp hmem
    exact ⟨classifySpec sessions n,
      mem_build_sync_specs.mpr ⟨kv, hkv, by rw [hk]⟩, classifySpec_name sessions n⟩
  · intro spec hspec hspecName
    obtain ⟨kv, hkv, rfl⟩ := mem_build_sync_specs.mp hspec
    have hkey : kv.1 = n := by
      rw [← classifySpec_name sessions kv.1]
      exact hspecName
    rw [hkey, classifySpec_eq_notRunning hfind2 hfindP]
    exact ⟨rfl, rfl⟩

/-- The reconciled spec names are a permutation of the configured keys. -/
theorem build_sync_specs_names_perm (pf : ProjectFile) (sessions : List SyncSession) :
    List.Perm ((build_sync_specs pf sessions).map SyncSpec.name)
      (pf.sessions.map Prod.fst) := by
  unfold build_sync_specs
  have hperm :=
    (List.mergeSort_perm (pf.sessions.map (fun kv => classifySpec sessions kv.1))
      (fun a b => decide (a.name ≤ b.name))).map SyncSpec.name
  refine hperm.trans ?_
  rw [List.map_map]
  exact List.Perm.of_eq
    (List.map_congr_left (fun kv _ => classifySpec_name sessions kv.1))

/-- C9: the reconciled spec list is sorted by name in lexicographic order,
and since spec names are unique map keys of the project configuration the
order is strict (hence total and deterministic). -/
theorem specs_sorted_by_name (pf : ProjectFile) (sessions : List SyncSession)
    (hnodup : (pf.sessions.map Prod.fst).Nodup) :
    ((build_sync_specs pf sessions).map SyncSpec.name).Sorted (· ≤ ·) ∧
    ((build_sync_specs pf sessions).map SyncSpec.name).Sorted (· < ·) := by
  have hsorted : ((build_sync_specs pf sessions).map SyncSpec.name).Sorted (· ≤ ·) := by
    have h := @List.sorted_mergeSort _
      (fun a b : SyncSpec => decide (a.name ≤ b.name))
      (fun a b c hab hbc => by
        simp only [decide_eq_true_eq] at *
        exact le_trans hab hbc)
      (fun a b => by simpa using le_total a.name b.name)
      (pf.sessions.map (fun kv => classifySpec sessions kv.1))
    rw [List.Sorted, List.pairwise_map]
    unfold build_sync_specs
    exact h.imp (fun hab => by simpa using hab)
  have hnodupNames : ((build_sync_specs pf sessions).map SyncSpec.name).Nodup :=
    ((build_sync_specs_names_perm pf sessions).nodup_iff).mpr hnodup
  exact ⟨hsorted, hsorted.lt_of_le hnodupNames⟩

/-- C10: when several sessions satisfy the same match rule for one spec,
the first matching session in the session list's order is attached: for
the two-way rule the first two-way match wins outright, and for the push
rule the first push match wins whenever no two-way match exists anywhere
in the list. -/
theorem first_match_attached (pf : ProjectFile) (n : String) (s : SyncSession)
    (l₁ l₂ : List SyncSession) :
    (isTwoWayMatch n s = true → (∀ t ∈ l₁, isTwoWayMatch n t = false) →
      ∀ spec ∈ build_sync_specs pf (l₁ ++ s :: l₂), spec.name = n →
        spec.state = SyncSpecState.RunningTwoWay ∧ spec.running_session = some s) ∧
    ((∀ t ∈ l₁ ++ s :: l₂, isTwoWayMatch n t = false) →
      isPushMatch n s = true → (∀ t ∈ l₁, isPushMatch n t = false) →
      ∀ spec ∈ build_sync_specs pf (l₁ ++ s :: l₂), spec.name = n →
        spec.state = SyncSpecState.RunningPush ∧ spec.running_session = some s) := by
  constructor
  · intro hs hl₁ spec hspec hspecName
    have hfind : (l₁ ++ s :: l₂).find? (isTwoWayMatch n) = some s := by
      rw [List.find?_append, List.find?_eq_none.mpr (by simpa using hl₁),
        List.find?_cons_of_pos _ hs]
      rfl
    obtain ⟨kv, hkv, rfl⟩ := mem_build_sync_specs.mp hspec
    have hkey : kv.1 = n := by
      rw [← classifySpec_name (l₁ ++ s :: l₂) kv.1]
      exact hspecName
    rw [hkey, classifySpec_eq_twoWay hfind]
    exact ⟨rfl, rfl⟩
  · intro hno2 hs hl₁ spec hspec hspecName
    have hfind2 : (l₁ ++ s :: l₂).find? (isTwoWayMatch n) = none :=
      List.find?_eq_none.mpr (by simpa using hno2)
    have hfindP : (l₁ ++ s :: l₂).find? (isPushMatch n) = some s := by
      rw [List.find?_append, List.find?_eq_none.mpr (by simpa using hl₁),
        List.find?_cons_of_pos _ hs]
      rfl
    obtain ⟨kv, hkv, rfl⟩ := mem_build_sync_specs.mp hspec
    have hkey : kv.1 = n := by
      rw [← classifySpec_name (l₁ ++ s :: l₂) kv.1]
      exact hspecName
    rw [hkey, classifySpec_eq_push hfind2 hfindP]
    exact ⟨rfl, rfl⟩

theorem length_filter_pos_iff {α : Type} (p : α → Bool) (l : List α) :
    0 < (l.filter p).length ↔ ∃ a ∈ l, p a = true := by
  rw [← List.countP_eq_length_filter, List.countP_pos_iff]

/-- C3: the auto-unfold heuristic recommends unfolded iff some spec has a
conflict, or the running-spec count is strictly between 0 and the total,
or both a `RunningTwoWay` and a `RunningPush` spec are present; and the
reconciled project's `folded` flag is the negation of the recommendation. -/
theorem auto_unfold_characterisation (specs : List SyncSpec) :
    (should_auto_unfold_specs specs = true ↔
      (∃ spec ∈ specs, spec.has_conflicts = true) ∨
      (0 < (specs.filter (fun s => s.is_running)).length ∧
        (specs.filter (fun s => s.is_running)).length < specs.length) ∨
      ((∃ spec ∈ specs, spec.state = SyncSpecState.RunningTwoWay) ∧
        (∃ spec ∈ specs, spec.state = SyncSpecState.RunningPush))) ∧
    ∀ (files : List ProjectFile) (sessions : List SyncSession),
      ∀ p ∈ correlate_projects_with_sessions files sessions,
        p.folded = !should_auto_unfold_specs p.specs := by
  constructor
  · unfold should_auto_unfold_specs
    dsimp only
    split
    · rename_i h1
      rw [List.any_eq_true] at h1
      exact iff_of_true rfl (Or.inl h1)
    · rename_i h1
      rw [List.any_eq_true] at h1
      push_neg at h1
      split
      · rename_i h2
        rw [Bool.and_eq_true, decide_eq_true_eq, decide_eq_true_eq] at h2
        exact iff_of_true rfl (Or.inr (Or.inl ⟨h2.1, h2.2⟩))
      · rename_i h2
        rw [Bool.and_eq_true, decide_eq_true_eq, decide_eq_true_eq] at h2
        push_neg at h2
        split
        · rename_i h3
          rw [Bool.and_eq_true, decide_eq_true_eq, decide_eq_true_eq] at h3
          refine iff_of_true rfl (Or.inr (Or.inr ⟨?_, ?_⟩))
          · have := (length_filter_pos_iff
              (fun s => decide (s.state = SyncSpecState.RunningTwoWay)) specs).mp h3.1
            simpa using this
          · have := (length_filter_pos_iff
              (fun s => decide (s.state = SyncSpecState.RunningPush)) specs).mp h3.2
            simpa using this
        · rename_i h3
          rw [Bool.and_eq_true, decide_eq_true_eq, decide_eq_true_eq] at h3
          push_neg at h3
          refine iff_of_false (by simp) ?_
          rintro (⟨spec, hspec, hc⟩ | ⟨hpos, hlt⟩ | ⟨h2w, hpush⟩)
          · exact absurd hc (by simpa using h1 spec hspec)
          · exact absurd hlt (by simpa using h2 hpos)
          · have h2w' : 0 < (specs.filter
                (fun s => decide (s.state = SyncSpecState.RunningTwoWay))).length := by
              rw [length_filter_pos_iff]
              simpa using h2w
            have hpush' : 0 < (specs.filter
                (fun s => decide (s.state = SyncSpecState.RunningPush))).length := by
              rw [length_filter_pos_iff]
              simpa using hpush
            exact absurd hpush' (by simpa using h3 h2w')
  · intro files sessions p hp
    unfold correlate_projects_with_sessions at hp
    obtain ⟨file, _, rfl⟩ := List.mem_map.mp hp
    rfl

/-! ## Fold-state carryover lemmas -/

theorem foldl_hashMapGet_no_match {α : Type} (l : List (String × α)) (k : String)
    (acc : Option α) (h : ∀ kv ∈ l, kv.1 ≠ k) :
    l.foldl (fun acc kv => if kv.1 = k then some kv.2 else acc) acc = acc := by
  induction l generalizing acc with
  | nil => rfl
  | cons kv rest ih =>
    simp only [List.foldl_cons]
    rw [if_neg (h kv (List.mem_cons_self kv rest))]
    exact ih acc (fun kv' h' => h kv' (List.mem_cons_of_mem _ h'))

theorem foldl_hashMapGet_mem {α : Type} (l : List (String × α)) (k : String) (v : α)
    (hmem : (k, v) ∈ l) (hnodup : (l.map Prod.fst).Nodup) (acc : Option α) :
    l.foldl (fun acc kv => if kv.1 = k then some kv.2 else acc) acc = some v := by
  induction l generalizing acc with
  | nil => cases hmem
  | cons kv rest ih =>
    simp only [List.foldl_cons]
    simp only [List.map_cons, List.nodup_cons] at hnodup
    rcases List.mem_cons.mp hmem with heq | hrest
    · rw [← heq]
      rw [if_pos rfl]
      refine foldl_hashMapGet_no_match rest k (some v) ?_
      intro kv' hkv' hk
      apply hnodup.1
      rw [← heq] at hnodup ⊢
      exact List.mem_map.mpr ⟨kv', hkv', hk⟩
    · exact ih hrest hnodup.2 _

theorem hashMapGet_of_mem_nodup {α : Type} {l : List (String × α)} {k : String} {v : α}
    (hmem : (k, v) ∈ l) (hnodup : (l.map Prod.fst).Nodup) :
    hashMapGet l k = some v :=
  foldl_hashMapGet_mem l k v hmem hnodup none

theorem hashMapGet_eq_none {α : Type} {l : List (String × α)} {k : String}
    (h : ∀ kv ∈ l, kv.1 ≠ k) : hashMapGet l k = none :=
  foldl_hashMapGet_no_match l k none h

theorem foldl_hashMapGet_mem_of_eq_some {α : Type} (l : List (String × α))
    (k : String) (v : α) (acc : Option α)
    (h : l.foldl (fun acc kv => if kv.1 = k then some kv.2 else acc) acc = some v) :
    (k, v) ∈ l ∨ acc = some v := by
  induction l generalizing acc with
  | nil => exact Or.inr h
  | cons kv rest ih =>
    simp only [List.foldl_cons] at h
    rcases ih _ h with hrest | hacc
    · exact Or.inl (List.mem_cons_of_mem _ hrest)
    · by_cases hk : kv.1 = k
      · rw [if_pos hk] at hacc
        refine Or.inl ?_
        have : (k, v) = kv := by
          obtain ⟨k', v'⟩ := kv
          simp only at hk
          injection hacc with hv
          simp only at hv
          rw [hk, hv]
        rw [this]
        exact List.mem_cons_self kv rest
      · rw [if_neg hk] at hacc
        exact Or.inr hacc

theorem hashMapGet_mem_of_eq_some {α : Type} {l : List (String × α)} {k : String}
    {v : α} (h : hashMapGet l k = some v) : (k, v) ∈ l := by
  rcases foldl_hashMapGet_mem_of_eq_some l k v none h with hmem | habs
  · exact hmem
  · cases habs

theorem foldl_hashMapGet_isSome_acc {α : Type} (l : List (String × α))
    (k : String) (acc : Option α) (hacc : acc.isSome) :
    (l.foldl (fun acc kv => if kv.1 = k then some kv.2 else acc) acc).isSome := by
  induction l generalizing acc with
  | nil => exact hacc
  | cons kv rest ih =>
    simp only [List.foldl_cons]
    refine ih _ ?_
    by_cases hk : kv.1 = k
    · rw [if_pos hk]
      rfl
    · rw [if_neg hk]
      exact hacc

theorem hashMapGet_isSome_of_mem {α : Type} {l : List (String × α)} {k : String}
    {v : α} (hmem : (k, v) ∈ l) : (hashMapGet l k).isSome := by
  unfold hashMapGet
  induction l with
  | nil => cases hmem
  | cons kv rest ih =>
    simp only [List.foldl_cons]
    by_cases hk : kv.1 = k
    · rw [if_pos hk]
      exact foldl_hashMapGet_isSome_acc rest k _ rfl
    · rw [if_neg hk]
      rcases List.mem_cons.mp hmem with heq | hrest
      · rw [← heq] at hk
        exact absurd rfl hk
      · exact ih hrest

/-- C4: after fold-state carryover, a new project whose file path equals the
file path of some previous project takes a matching previous project's
`folded` flag (whatever the fresh auto-computed flag was) — with unique
previous paths this is the flag of the unique previous project at that
path — and a new project whose path did not occur before is kept
unchanged, auto-computed flag included. -/
theorem fold_state_carryover (prev new_projects : List Project)
    (i : Nat) (h : i < new_projects.length)
    (h' : i < (restoreFoldState (foldStateOf prev) new_projects).length) :
    ((∃ q ∈ prev, q.file.path = new_projects[i].file.path) →
      ∃ q ∈ prev, q.file.path = new_projects[i].file.path ∧
        (restoreFoldState (foldStateOf prev) new_projects)[i].folded = q.folded) ∧
    ((prev.map (fun p => p.file.path)).Nodup →
      ∀ q ∈ prev, q.file.path = new_projects[i].file.path →
        (restoreFoldState (foldStateOf prev) new_projects)[i].folded = q.folded) ∧
    ((∀ q ∈ prev, q.file.path ≠ new_projects[i].file.path) →
      (restoreFoldState (foldStateOf prev) new_projects)[i] = new_projects[i]) := by
  have hElem : (restoreFoldState (foldStateOf prev) new_projects)[i] =
      match hashMapGet (foldStateOf prev) new_projects[i].file.path with
      | some saved_folded => { new_projects[i] with folded := saved_folded }
      | none => new_projects[i] := by
    unfold restoreFoldState
    rw [List.getElem_map]
  refine ⟨?_, ?_, ?_⟩
  · rintro ⟨q, hq, hpath⟩
    have hmem : (new_projects[i].file.path, q.folded) ∈ foldStateOf prev := by
      unfold foldStateOf
      exact List.mem_map.mpr ⟨q, hq, by rw [hpath]⟩
    obtain ⟨v, hv⟩ := Option.isSome_iff_exists.mp (hashMapGet_isSome_of_mem hmem)
    obtain ⟨q', hq', hq'eq⟩ := List.mem_map.mp (hashMapGet_mem_of_eq_some hv)
    have hq'path : q'.file.path = new_projects[i].file.path := congrArg Prod.fst hq'eq
    have hq'fold : q'.folded = v := congrArg Prod.snd hq'eq
    refine ⟨q', hq', hq'path, ?_⟩
    rw [hElem, hv, hq'fold]
  · intro hnodup q hq hpath
    have hkeys : ((foldStateOf prev).map Prod.fst).Nodup := by
      unfold foldStateOf
      rw [List.map_map]
      exact hnodup
    have hmem : (new_projects[i].file.path, q.folded) ∈ foldStateOf prev := by
      unfold foldStateOf
      exact List.mem_map.mpr ⟨q, hq, by rw [hpath]⟩
    rw [hElem, hashMapGet_of_mem_nodup hmem hkeys]
  · intro hnone
    have hget : hashMapGet (foldStateOf prev) new_projects[i].file.path = none := by
      refine hashMapGet_eq_none ?_
      intro kv hkv
      obtain ⟨q, hq, rfl⟩ := List.mem_map.mp hkv
      exact hnone q hq
    rw [hElem, hget]

/-! ## Cursor invariant preservation -/

theorem cursorInv_update_sizes (sm : SelectionManager) (p s : Nat) :
    CursorInv (sm.update_sizes p s) := by
  unfold CursorInv SelectionManager.update_sizes SelectionManager.total_items
  dsimp only
  split_ifs <;> dsimp only <;> omega

theorem cursorInv_select_next (sm : SelectionManager) :
    CursorInv sm.select_next := by
  unfold CursorInv SelectionManager.select_next SelectionManager.total_items
    SelectionManager.update_focus_from_selection
  dsimp only
  split_ifs <;> try dsimp only
  all_goals intro h
  all_goals first
    | exact Nat.mod_lt _ (by omega)
    | omega

theorem cursorInv_select_previous (sm : SelectionManager) (h : CursorInv sm) :
    CursorInv sm.select_previous := by
  unfold CursorInv SelectionManager.total_items at h
  unfold CursorInv SelectionManager.select_previous SelectionManager.total_items
    SelectionManager.update_focus_from_selection
  dsimp only
  split_ifs <;> try dsimp only
  all_goals omega

theorem save_current_position_fields (sm : SelectionManager) :
    (sm.save_current_position).projects_len = sm.projects_len ∧
    (sm.save_current_position).sessions_len = sm.sessions_len ∧
    (sm.save_current_position).selected_index = sm.selected_index ∧
    (sm.save_current_position).focus_area = sm.focus_area := by
  unfold SelectionManager.save_current_position
  split
  · exact ⟨rfl, rfl, rfl, rfl⟩
  · split
    · exact ⟨rfl, rfl, rfl, rfl⟩
    · exact ⟨rfl, rfl, rfl, rfl⟩

theorem cursorInv_toggle_focus (sm : SelectionManager) (h : CursorInv sm) :
    CursorInv sm.toggle_focus := by
  obtain ⟨hp, hs, hi, _⟩ := save_current_position_fields sm
  unfold CursorInv SelectionManager.total_items at h
  unfold CursorInv SelectionManager.toggle_focus SelectionManager.total_items
  generalize hgen : sm.save_current_position = t at hp hs hi
  clear hgen
  cases t with
  | mk p s i lpi lsi fa =>
    dsimp only at hp hs hi ⊢
    cases fa <;> (try dsimp only) <;> split_ifs <;> try dsimp only
    all_goals try omega
    all_goals cases lpi <;> cases lsi <;> (try dsimp only) <;> try split_ifs
    all_goals try dsimp only
    all_goals omega

theorem cursorInv_select_project (sm : SelectionManager) (h : CursorInv sm)
    (idx : Nat) : CursorInv (sm.select_project idx) := by
  unfold CursorInv SelectionManager.total_items at h
  unfold CursorInv SelectionManager.select_project SelectionManager.total_items
  split_ifs <;> try dsimp only
  all_goals omega

theorem cursorInv_select_session (sm : SelectionManager) (h : CursorInv sm)
    (idx : Nat) : CursorInv (sm.select_session idx) := by
  unfold CursorInv SelectionManager.total_items at h
  unfold CursorInv SelectionManager.select_session SelectionManager.total_items
  split_ifs <;> try dsimp only
  all_goals omega

/-- C5: every operation of the selection model — size update/rebuild,
`select_next`, `select_previous`, `toggle_focus`, `select_project`,
`select_session` — preserves the cursor invariant: whenever the unified
item list is non-empty, the selected index is strictly below the total
item count. -/
theorem selection_ops_preserve_cursor_invariant (op : SelOp)
    (sm : SelectionManager) (h : CursorInv sm) : CursorInv (op.apply sm) := by
  cases op with
  | updateSizes p s => exact cursorInv_update_sizes sm p s
  | next => exact cursorInv_select_next sm
  | prev => exact cursorInv_select_previous sm h
  | toggleFocus => exact cursorInv_toggle_focus sm h
  | selProject i => exact cursorInv_select_project sm h i
  | selSession i => exact cursorInv_select_session sm h i

/-- Run a sequence of selection operations from the initial state. -/
def runSelOps (ops : List SelOp) : SelectionManager :=
  ops.foldl (fun sm op => op.apply sm) SelectionManager.new

/-- The state reached by growing the list to 10 items, stepping the cursor
to index 8, and then shrinking the list to empty: the cursor keeps its
stale value 8 while the list is empty. -/
def staleCursorState : SelectionManager :=
  runSelOps ([SelOp.updateSizes 5 5] ++ List.replicate 8 SelOp.next ++
    [SelOp.updateSizes 0 0])

/-- C6 counterexample: a rebuild that takes the list from empty to
non-empty does not reset the cursor to 0 — the stale cursor 8 is merely
clamped to the new last row 4. -/
theorem rebuild_does_not_reset_cursor :
    staleCursorState.total_items = 0 ∧
    staleCursorState.selected_index = 8 ∧
    0 < (staleCursorState.update_sizes 2 3).total_items ∧
    (staleCursorState.update_sizes 2 3).selected_index = 4 ∧
    (staleCursorState.update_sizes 2 3).selected_index ≠ 0 := by
  decide

/-- C6 as amended: on every size update/rebuild the cursor is clamped into
`[0, len-1]` whenever the new list is non-empty, and kept unchanged when
the new list is empty; there is no special reset to 0 on an
empty-to-non-empty transition (the cursor ends at 0 exactly when its
clamp does, in particular whenever it was 0 while the list was empty). -/
theorem rebuild_clamps_cursor (sm : SelectionManager) (p s : Nat) :
    (sm.update_sizes p s).selected_index =
      if 0 < p + s then min sm.selected_index (p + s - 1)
      else sm.selected_index := by
  unfold SelectionManager.update_sizes SelectionManager.total_items
  dsimp only
  split_ifs <;> dsimp only <;> omega

/-- C7: on a non-empty list, `select_next` at the last row wraps the cursor
to row 0 and `select_previous` at row 0 wraps it to the last row; on an
empty list both operations leave the whole state unchanged. -/
theorem selection_wraparound (sm : SelectionManager) :
    (sm.total_items = 0 → sm.select_next = sm ∧ sm.select_previous = sm) ∧
    (0 < sm.total_items → sm.selected_index = sm.total_items - 1 →
      (sm.select_next).selected_index = 0) ∧
    (0 < sm.total_items → sm.selected_index = 0 →
      (sm.select_previous).selected_index = sm.total_items - 1) := by
  refine ⟨?_, ?_, ?_⟩
  · intro h0
    constructor
    · unfold SelectionManager.select_next
      rw [if_neg (by omega)]
    · unfold SelectionManager.select_previous
      rw [if_neg (by omega)]
  · intro hpos hlast
    unfold SelectionManager.select_next SelectionManager.update_focus_from_selection
    dsimp only
    rw [if_pos hpos]
    split_ifs <;> dsimp only <;> rw [hlast, Nat.sub_add_cancel hpos, Nat.mod_self]
  · intro hpos hzero
    unfold SelectionManager.select_previous SelectionManager.update_focus_from_selection
    dsimp only
    rw [if_pos hpos, if_pos hzero]
    split_ifs <;> dsimp only

/-- C8: when the session query fails at the collaborator boundary,
`refresh_sessions` leaves the previous project list, the selection rows,
the cursor, and every other field unchanged — the rebuild for that tick is
skipped entirely — and only records an error status message plus the error
flag. -/
theorem refresh_error_skips_rebuild (app : App) (e : String)
    (discover_result : Except String (List ProjectFile)) (now : Int) :
    (app.refresh_sessions (Except.error e) discover_result now).projects =
      app.projects ∧
    (app.refresh_sessions (Except.error e) discover_result now).selection.rows =
      app.selection.rows ∧
    (app.refresh_sessions (Except.error e) discover_result now).selection.cursor =
      app.selection.cursor ∧
    (app.refresh_sessions (Except.error e) discover_result now).last_refresh =
      app.last_refresh ∧
    (app.refresh_sessions (Except.error e) discover_result now).should_quit =
      app.should_quit ∧
    (app.refresh_sessions (Except.error e) discover_result now).project_dir =
      app.project_dir ∧
    (app.refresh_sessions (Except.error e) discover_result now).session_display_mode =
      app.session_display_mode ∧
    (app.refresh_sessions (Except.error e) discover_result now).viewing_conflicts =
      app.viewing_conflicts ∧
    (app.refresh_sessions (Except.error e) discover_result now).viewing_help =
      app.viewing_help ∧
    (app.refresh_sessions (Except.error e) discover_result now).status_message =
      some (StatusMessage.Error ("Error: " ++ e ++ " (press 'r' to retry)")) ∧
    (app.refresh_sessions (Except.error e) discover_result now).has_refresh_error =
      true := by
  unfold App.refresh_sessions
  exact ⟨rfl, rfl, rfl, rfl, rfl, rfl, rfl, rfl, rfl, rfl, rfl⟩

/-! ## Concrete sample data for witnesses -/

def sampleEndpoint : Endpoint :=
  { protocol := "local", path := "/a", host := none, connected := true,
    scanned := true, directories := none, files := none,
    symbolic_links := none, total_file_size := none }

/-- Build a session with the given name and mode over the sample endpoints. -/
def mkSession (name : String) (mode : Option String) : SyncSession :=
  { name := name, identifier := "id-" ++ name, alpha := sampleEndpoint,
    beta := sampleEndpoint, status := "Watching for changes", paused := false,
    mode := mode, creation_time := none, successful_cycles := none,
    conflicts := [], sync_time := SyncTime.Unknown }

def sampleDefn : SessionDefinition :=
  { alpha := "/local", beta := "server:/remote", mode := none, ignore := none }

def samplePf : ProjectFile :=
  { path := "/test/mutagen.yml", target_name := none,
    sessions := [("db", sampleDefn), ("web", sampleDefn)] }

/-- A session list holding both a two-way session named `web` and a
coexisting one-way push session named `web-push`. -/
def sampleSessions : List SyncSession :=
  [mkSession "web" none, mkSession "web-push" (some "one-way-replica")]

theorem two_way_precedence_witness :
    (∃ spec ∈ build_sync_specs samplePf sampleSessions, spec.name = "web") ∧
    ∀ spec ∈ build_sync_specs samplePf sampleSessions, spec.name = "web" →
      spec.state = SyncSpecState.RunningTwoWay ∧
      ∃ att, spec.running_session = some att ∧ att.name = "web" ∧
        att.mode ≠ some "one-way-replica" :=
  two_way_precedence samplePf sampleSessions "web" (mkSession "web" none)
    (by decide) (by decide) (by decide) (by decide)

theorem not_running_of_no_match_witness :
    (∃ spec ∈ build_sync_specs samplePf sampleSessions, spec.name = "db") ∧
    (∀ spec ∈ build_sync_specs samplePf sampleSessions, spec.name = "db" →
      spec.state = SyncSpecState.NotRunning ∧ spec.running_session = none) ∧
    (build_sync_specs samplePf sampleSessions).length = samplePf.sessions.length :=
  not_running_of_no_match samplePf sampleSessions "db"
    (by decide) (by decide) (by decide)

theorem specs_sorted_by_name_witness :
    ((build_sync_specs samplePf sampleSessions).map SyncSpec.name).Sorted (· ≤ ·) ∧
    ((build_sync_specs samplePf sampleSessions).map SyncSpec.name).Sorted (· < ·) :=
  specs_sorted_by_name samplePf sampleSessions (by decide)

/-- A session carrying one conflict. -/
def conflictSession : SyncSession :=
  { mkSession "web" none with conflicts := [⟨"src/main.rs", [], []⟩] }

def sampleSpecs : List SyncSpec :=
  [⟨"web", SyncSpecState.RunningTwoWay, some conflictSession⟩]

/-- The project reconciled from the sample file and sessions. -/
def sampleReconciled : Project :=
  { file := samplePf,
    specs := build_sync_specs samplePf sampleSessions,
    folded := !should_auto_unfold_specs (build_sync_specs samplePf sampleSessions) }

theorem auto_unfold_characterisation_witness :
    should_auto_unfold_specs sampleSpecs = true ∧
    sampleReconciled.folded = !should_auto_unfold_specs sampleReconciled.specs :=
  ⟨(auto_unfold_characterisation sampleSpecs).1.mpr
      (Or.inl ⟨⟨"web", SyncSpecState.RunningTwoWay, some conflictSession⟩,
        by decide, by decide⟩),
    (auto_unfold_characterisation sampleSpecs).2 [samplePf] sampleSessions
      sampleReconciled
      (by unfold correlate_projects_with_sessions
          exact List.mem_map.mpr ⟨samplePf, by simp, rfl⟩)⟩

def samplePrevProject : Project :=
  { file := samplePf, specs := [], folded := true }

def sampleNewProject : Project :=
  { file := samplePf, specs := [], folded := false }

theorem fold_state_carryover_witness :
    ∃ q ∈ [samplePrevProject],
      q.file.path = [sampleNewProject][0].file.path ∧
      (restoreFoldState (foldStateOf [samplePrevProject]) [sampleNewProject])[0].folded
        = q.folded :=
  (fold_state_carryover [samplePrevProject] [sampleNewProject] 0
    (by decide) (by decide)).1 ⟨samplePrevProject, by simp, rfl⟩

def smSample : SelectionManager :=
  { projects_len := 2, sessions_len := 3, selected_index := 1,
    last_project_index := none, last_session_index := none,
    focus_area := FocusArea.Projects }

theorem selection_ops_preserve_cursor_invariant_witness :
    CursorInv (SelOp.apply SelOp.next smSample) :=
  selection_ops_preserve_cursor_invariant SelOp.next smSample
    (by unfold CursorInv; decide)

def smAtLast : SelectionManager :=
  { projects_len := 2, sessions_len := 3, selected_index := 4,
    last_project_index := none, last_session_index := none,
    focus_area := FocusArea.Sessions }

def smAtZero : SelectionManager :=
  { projects_len := 2, sessions_len := 3, selected_index := 0,
    last_project_index := none, last_session_index := none,
    focus_area := FocusArea.Projects }

theorem selection_wraparound_witness :
    (SelectionManager.new.select_next = SelectionManager.new ∧
      SelectionManager.new.select_previous = SelectionManager.new) ∧
    (smAtLast.select_next).selected_index = 0 ∧
    (smAtZero.select_previous).selected_index = smAtZero.total_items - 1 :=
  ⟨(selection_wraparound SelectionManager.new).1 (by decide),
    (selection_wraparound smAtLast).2.1 (by decide) (by decide),
    (selection_wraparound smAtZero).2.2 (by decide) (by decide)⟩

/-- A session list in which two distinct sessions both satisfy the two-way
rule for spec `web`; the first one in list order is `mkSession "web" none`. -/
def c10Sessions : List SyncSession :=
  [mkSession "db" none] ++ mkSession "web" none ::
    [mkSession "web" (some "two-way-resolved")]

theorem first_match_attached_witness :
    (classifySpec c10Sessions "web").state = SyncSpecState.RunningTwoWay ∧
    (classifySpec c10Sessions "web").running_session = some (mkSession "web" none) :=
  (first_match_attached samplePf "web" (mkSession "web" none)
      [mkSession "db" none] [mkSession "web" (some "two-way-resolved")]).1
    (by decide) (by decide) (classifySpec c10Sessions "web")
    (mem_build_sync_specs.mpr ⟨("web", sampleDefn), by decide, rfl⟩)
    (classifySpec_name c10Sessions "web")

end Mutagui
